import Mathlib

set_option maxHeartbeats 1000000

/-!
Shallow embedding of the core analysis engine of ts-deadcode (src/lib.rs).

Strings model swc JsWord atoms (`Sym`) and canonical paths / PathBuf
module identities (`ModId`).  Rust HashMaps are modelled as association
lists with overwrite-on-insert (`insertA`), HashSets as duplicate-free
lists (`insertSet` adds only when absent, removal filters).  Process
stdout (println diagnostics) is modelled as a `log` list, most recent
entry first.  Rust panics are modelled by `Except.error`; the module
specifier resolver (parcel_resolver, an external collaborator) is a
function parameter `R : Sym → ModId → Resolution` standing for
`resolve_with_options(specifier, self.filename, ..)`.
-/

namespace TsDeadcode

/-- swc JsWord atoms. -/
abbrev Sym := String

/-- Module identities: canonical path strings (Rust PathBuf). -/
abbrev ModId := String

/-- Outcome of `resolver.resolve_with_options(..).result` (parcel_resolver):
`Ok((Resolution::Path|Builtin|External|Empty|Global, ..))` or `Err`. -/
inductive Resolution where
  | path (filename : ModId)
  | builtin (name : String)
  | external
  | empty
  | globalR (name : String)
  | err (e : String)
  deriving DecidableEq

/-- Association-list lookup, first match (HashMap::get; keys are unique in
every state the API produces, where `insertA` overwrites). -/
def lookupA {α : Type} : List (String × α) → String → Option α
  | [], _ => none
  | (k, v) :: rest, key => if k = key then some v else lookupA rest key

/-- HashMap::insert: overwrite the entry for the key when present,
otherwise add a new entry. -/
def insertA {α : Type} : List (String × α) → String → α → List (String × α)
  | [], k, v => [(k, v)]
  | (k0, v0) :: rest, k, v =>
    if k0 = k then (k, v) :: rest else (k0, v0) :: insertA rest k v

/-- HashSet::insert on a duplicate-free list. -/
def insertSet (l : List Sym) (s : Sym) : List Sym := if s ∈ l then l else s :: l

/-- `import_usage.imports.entry(m).or_default().insert(s)`:
the Usage Index entry for module `m` gains symbol `s`. -/
def insertUsage : List (ModId × List Sym) → ModId → Sym → List (ModId × List Sym)
  | [], m, s => [(m, [s])]
  | (k, v) :: rest, m, s =>
    if k = m then (k, insertSet v s) :: rest else (k, v) :: insertUsage rest m s

/-- The mutable state of one `FileAnalyzer` run (lib.rs `FileAnalyzer`),
together with the shared Usage Index (`&mut ImportUsage`) and the stdout
log. -/
structure FSt where
  filename : ModId
  /-- exported_name -> original_name (value exports). -/
  exports : List (Sym × Sym)
  /-- exported_name -> original_name (type-only exports). -/
  typeExports : List (Sym × Sym)
  /-- local name -> module specifier string (namespace alias bindings). -/
  namespaceImports : List (Sym × Sym)
  exportAlls : List ModId
  /-- The shared ImportUsage accumulator: module identity -> used symbols. -/
  usage : List (ModId × List Sym)
  /-- println output, most recent first. -/
  log : List String
  deriving DecidableEq

/-- `FileAnalyzer::record_import` (lib.rs:72).  The literal specifier
"csstype" is skipped before the resolver is consulted; `Path` outcomes add
a usage fact; `Builtin` and `Empty` record nothing; `Err` logs and records
nothing; the remaining outcomes panic (`Except.error`). -/
def recordImport (R : Sym → ModId → Resolution) (st : FSt) (path : Sym)
    (symbol : Sym) : Except String FSt :=
  if path = "csstype" then
    .ok { st with log := ("Got csstype: " ++ symbol) :: st.log }
  else
    match R path st.filename with
    | .path filename => .ok { st with usage := insertUsage st.usage filename symbol }
    | .builtin _ => .ok st
    | .empty => .ok st
    | .err e => .ok { st with log := ("ERROR " ++ st.filename ++ " " ++ e) :: st.log }
    | _ => .error "Got resolution"

/-- `FileAnalyzer::record_export` (lib.rs:117). -/
def recordExport (st : FSt) (exportedName originalName : Sym) : FSt :=
  { st with exports := insertA st.exports exportedName originalName }

/-- `FileAnalyzer::record_type_export` (lib.rs:122). -/
def recordTypeExport (st : FSt) (exportedName originalName : Sym) : FSt :=
  { st with typeExports := insertA st.typeExports exportedName originalName }

/-- `FileAnalyzer::record_export_all` (lib.rs:127): `Path` outcomes append
the resolved target to the export-all edge list, preserving declaration
order; `Builtin`/`Empty` record nothing; `Err` logs; others panic. -/
def recordExportAll (R : Sym → ModId → Resolution) (st : FSt) (path : Sym) :
    Except String FSt :=
  match R path st.filename with
  | .path filename =>
    .ok { st with log := ("Resolved to " ++ filename) :: st.log,
                  exportAlls := st.exportAlls ++ [filename] }
  | .builtin _ => .ok st
  | .empty => .ok st
  | .err e => .ok { st with log := ("ERROR " ++ st.filename ++ " " ++ e) :: st.log }
  | _ => .error "Got resolution"

/-! ### The syntax tree (swc_ecma_ast), restricted to the node shapes the
visitor inspects.  Shapes the visitor never looks inside are collapsed to
`other` constructors. -/

/-- swc `Lit`, keeping only string literals apart. -/
inductive Lit where
  | str (value : String)
  | otherLit

/-- swc `MemberProp`. -/
inductive MemberProp where
  | ident (sym : Sym)
  | otherProp

/-- swc `PropName`. -/
inductive PropName where
  | ident (sym : Sym)
  | otherName

mutual
/-- swc `Pat` (patterns hold no analyzed expressions in the shapes the
visitor reads). -/
inductive Pat where
  | ident (sym : Sym)
  | array (elems : List (Option Pat))
  | object (props : List ObjectPatProp)
  | otherPat

/-- swc `ObjectPatProp`. -/
inductive ObjectPatProp where
  | assign (key : Sym)
  | keyValue (key : PropName) (value : Pat)
  | rest
end

mutual
/-- swc `Expr`, the variants the visitor dispatches on. -/
inductive Expr where
  | ident (sym : Sym)
  | lit (l : Lit)
  | member (obj : Expr) (prop : MemberProp)
  | call (callee : Callee) (args : List Expr)
  | arrow (params : List Pat) (body : List Stmt)
  | paren (e : Expr)
  | tsAs (e : Expr)
  | await (arg : Expr)
  | otherExpr

/-- swc `Callee`. -/
inductive Callee where
  | superC
  | importC
  | expr (e : Expr)

/-- swc `Stmt`, the variants whose children matter to the visitor. -/
inductive Stmt where
  | exprStmt (e : Expr)
  | varDecl (decls : List VarDeclarator)
  | otherStmt

/-- swc `VarDeclarator`. -/
inductive VarDeclarator where
  | mk (name : Pat) (init : Option Expr)
end

/-- swc `Decl`, the variants `visit_module_decl` classifies for
`ExportDecl`. -/
inductive Decl where
  | classD (ident : Sym)
  | fnD (ident : Sym)
  | varD (decls : List VarDeclarator)
  | tsInterface (ident : Sym)
  | tsTypeAlias (ident : Sym)
  | tsEnum (ident : Sym)
  | otherDecl

/-- swc `ModuleExportName`. -/
inductive ModuleExportName where
  | ident (sym : Sym)
  | str (value : String)

/-- swc `ImportSpecifier`. -/
inductive ImportSpecifier where
  | namedS (localName : Sym) (imported : Option ModuleExportName)
  | defaultS (localName : Sym)
  | namespaceS (localName : Sym)

/-- swc `ExportSpecifier`. -/
inductive ExportSpecifier where
  | namedS (orig : ModuleExportName) (exported : Option ModuleExportName)
  | namespaceS (name : ModuleExportName)
  | defaultS

/-- swc `ModuleDecl`, the variants the visitor handles (the catch-all logs a
warning).  `NamedExport.src` is never read by the visitor and is omitted. -/
inductive ModuleDecl where
  | importD (specifiers : List ImportSpecifier) (src : String)
  | exportDeclD (d : Decl)
  | exportNamedD (specifiers : List ExportSpecifier)
  | exportAllD (src : String)
  | exportDefaultDeclD
  | exportDefaultExprD (e : Expr)
  | otherModuleDecl

/-- swc `ModuleItem`. -/
inductive ModuleItem where
  | moduleDecl (d : ModuleDecl)
  | stmt (s : Stmt)

/-- swc `Module` (its body). -/
abbrev Module := List ModuleItem

/-- `export_name_atom` (lib.rs:31). -/
def exportNameAtom : ModuleExportName → Sym
  | .ident s => s
  | .str v => v

/-! ### Non-recursive visitor helpers -/

/-- `FileAnalyzer::record_destructured_import` (lib.rs:157): one usage fact
per destructured property name; unhandled prop shapes log a warning. -/
def recordDestructuredImport (R : Sym → ModId → Resolution) (st : FSt)
    (file : Sym) : List ObjectPatProp → Except String FSt
  | [] => .ok st
  | prop :: rest => do
    let st1 ←
      match prop with
      | .assign key => recordImport R st file key
      | .keyValue (.ident i) _ => recordImport R st file i
      | .keyValue _ _ =>
        .ok { st with log := ("WARNING " ++ st.filename ++ " unhandle object prop") :: st.log }
      | .rest =>
        .ok { st with log := ("WARNING " ++ st.filename ++ " unhandle object prop") :: st.log }
    recordDestructuredImport R st1 file rest

/-- `FileAnalyzer::extract_require_call` (lib.rs:212).  `call.args[0]` on an
empty argument list is a Rust index panic (`Except.error`). -/
def extractRequireCall (st : FSt) (callee : Callee) (args : List Expr) :
    Except String (FSt × Option Sym) :=
  match callee with
  | .superC => .ok (st, none)
  | .importC => .ok (st, none)
  | .expr e =>
    match e with
    | .ident sym =>
      if sym = "require" then
        match args with
        | [] => .error "index out of bounds"
        | a :: _ =>
          match a with
          | .lit (.str file) => .ok (st, some file)
          | _ =>
            .ok ({ st with
                   log := ("WARNING " ++ st.filename ++ " unhandled non-literal require")
                          :: st.log }, none)
      else .ok (st, none)
    | _ => .ok (st, none)

/-- `FileAnalyzer::extract_import_call` (lib.rs:234). -/
def extractImportCall (st : FSt) (callee : Callee) (args : List Expr) :
    Except String (FSt × Option Sym) :=
  match callee with
  | .superC => .ok (st, none)
  | .importC =>
    match args with
    | [] => .error "index out of bounds"
    | a :: _ =>
      match a with
      | .lit (.str file) => .ok (st, some file)
      | _ =>
        .ok ({ st with
               log := ("WARNING " ++ st.filename ++ " unhandled non-literal require")
                      :: st.log }, none)
  | .expr _ => .ok (st, none)

/-- `FileAnalyzer::handle_potential_require_call_member_expr` (lib.rs:184).
A non-identifier member prop after a recognized require call panics. -/
def handlePotentialRequireCallMemberExpr (R : Sym → ModId → Resolution)
    (st : FSt) (callee : Callee) (args : List Expr) (prop : MemberProp) :
    Except String FSt := do
  let (st1, fo) ← extractRequireCall st callee args
  match fo with
  | some filename =>
    match prop with
    | .ident i => recordImport R st1 filename i
    | _ => .error "unhandled"
  | none => .ok st1

/-- `FileAnalyzer::handle_potential_import_call_member_expr` (lib.rs:199). -/
def handlePotentialImportCallMemberExpr (R : Sym → ModId → Resolution)
    (st : FSt) (callee : Callee) (args : List Expr) (prop : MemberProp) :
    Except String FSt := do
  let (st1, fo) ← extractImportCall st callee args
  match fo with
  | some filename =>
    match prop with
    | .ident i => recordImport R st1 filename i
    | _ => .error "unhandled"
  | none => .ok st1

/-- The overridden part of `visit_member_expr` (lib.rs:494-547) before the
children are visited: namespace-alias member usage, then the
require/import member-expression shapes. -/
def memberExprLogic (R : Sym → ModId → Resolution) (st : FSt) (obj : Expr)
    (prop : MemberProp) : Except String FSt := do
  let st1 ←
    if st.namespaceImports.isEmpty then .ok st
    else
      match obj with
      | .ident sym =>
        match lookupA st.namespaceImports sym with
        | some file =>
          match prop with
          | .ident i => recordImport R st file i
          | _ =>
            .ok { st with log := ("WARNING " ++ st.filename ++ " unhandled MemberExpr")
                                 :: st.log }
        | none => .ok st
      | _ => .ok st
  match obj with
  | .call callee args => handlePotentialRequireCallMemberExpr R st1 callee args prop
  | .paren inner =>
    match inner with
    | .tsAs e =>
      match e with
      | .call callee args => handlePotentialRequireCallMemberExpr R st1 callee args prop
      | _ => .ok st1
    | .await e =>
      match e with
      | .call callee args => handlePotentialImportCallMemberExpr R st1 callee args prop
      | _ => .ok st1
    | _ => .ok st1
  | _ => .ok st1

/-- The `.then(mod => ..)` detection at the top of `visit_call_expr`
(lib.rs:552-574): when the callee is `import(specifier).then` and the first
argument is an arrow whose first parameter is a plain identifier, yield
that identifier and `extract_import_call` of the inner call. -/
def thenCallbackDetect (st : FSt) (callee : Callee) (args : List Expr) :
    Except String (FSt × Option Sym × Option Sym) :=
  match callee with
  | .expr (.member (.call icallee iargs) (.ident "then")) =>
    match args with
    | (Expr.arrow ps _) :: _ =>
      match ps with
      | (Pat.ident s) :: _ => do
        let (st1, fo) ← extractImportCall st icallee iargs
        .ok (st1, some s, fo)
      | _ => .ok (st, none, none)
    | _ => .ok (st, none, none)
  | _ => .ok (st, none, none)

/-! ### The traversal (swc_ecma_visit `Visit` with the FileAnalyzer
overrides).  Default behaviour visits children; the overridden methods
(`visit_module_decl`, `visit_var_declarator`, `visit_member_expr`,
`visit_call_expr`) run their logic and then visit children, exactly as the
Rust impl does. -/

mutual
/-- Dispatch over expressions: the overridden `visit_member_expr`
(lib.rs:494) and `visit_call_expr` (lib.rs:552) inlined at their
constructors, default children traversal elsewhere. -/
def visitExpr (R : Sym → ModId → Resolution) (st : FSt) : Expr → Except String FSt
  | .ident _ => .ok st
  | .lit _ => .ok st
  | .otherExpr => .ok st
  | .paren e => visitExpr R st e
  | .tsAs e => visitExpr R st e
  | .await e => visitExpr R st e
  | .arrow _ body => visitStmtList R st body
  | .member obj prop => do
    let st1 ← memberExprLogic R st obj prop
    visitExpr R st1 obj
  | .call callee args => do
    let (st1, so, fo) ← thenCallbackDetect st callee args
    match so, fo with
    | some sym, some filename =>
      -- lib.rs:576-583: bind the callback parameter, visit children, then
      -- restore the previous binding only when one existed.
      let prev := lookupA st1.namespaceImports sym
      let st2 := { st1 with namespaceImports := insertA st1.namespaceImports sym filename }
      do
        let st3 ← visitCallee R st2 callee
        let st4 ← visitExprList R st3 args
        match prev with
        | some p => .ok { st4 with namespaceImports := insertA st4.namespaceImports sym p }
        | none => .ok st4
    | _, _ => do
      let st3 ← visitCallee R st1 callee
      visitExprList R st3 args

/-- children of a `Callee`. -/
def visitCallee (R : Sym → ModId → Resolution) (st : FSt) : Callee → Except String FSt
  | .expr e => visitExpr R st e
  | _ => .ok st

def visitExprList (R : Sym → ModId → Resolution) (st : FSt) :
    List Expr → Except String FSt
  | [] => .ok st
  | e :: rest => do
    let st1 ← visitExpr R st e
    visitExprList R st1 rest

def visitStmt (R : Sym → ModId → Resolution) (st : FSt) : Stmt → Except String FSt
  | .exprStmt e => visitExpr R st e
  | .varDecl decls => visitVarDeclList R st decls
  | .otherStmt => .ok st

def visitStmtList (R : Sym → ModId → Resolution) (st : FSt) :
    List Stmt → Except String FSt
  | [] => .ok st
  | s :: rest => do
    let st1 ← visitStmt R st s
    visitStmtList R st1 rest

/-- The overridden `visit_var_declarator` (lib.rs:429).  The unhandled
var-name shape after a namespace-alias init logs and returns without
visiting children; an unhandled binding pattern for a recognized
require/import init is the `todo!` panic.  Note lib.rs:488: bindings added
here are never popped. -/
def visitVarDeclarator (R : Sym → ModId → Resolution) (st : FSt) :
    VarDeclarator → Except String FSt
  | .mk _ none => .ok st
  | .mk name (some init) => do
    let step : Except String (FSt × Option Sym × Bool) :=
      match init with
      | .ident sym =>
        match lookupA st.namespaceImports sym with
        | some file =>
          match name with
          | .object props => do
            let st1 ← recordDestructuredImport R st file props
            .ok (st1, none, false)
          | _ =>
            .ok ({ st with
                   log := ("WARNING " ++ st.filename ++ " unhandled var name") :: st.log },
                 none, true)
        | none => .ok (st, none, false)
      | .call callee args => do
        let (st1, fo) ← extractRequireCall st callee args
        .ok (st1, fo, false)
      | .tsAs e =>
        match e with
        | .call callee args => do
          let (st1, fo) ← extractRequireCall st callee args
          .ok (st1, fo, false)
        | _ => .ok (st, none, false)
      | .await e =>
        match e with
        | .call callee args => do
          let (st1, fo) ← extractImportCall st callee args
          .ok (st1, fo, false)
        | _ => .ok (st, none, false)
      | _ => .ok (st, none, false)
    let (st1, fo, earlyReturn) ← step
    if earlyReturn then .ok st1
    else do
      let st2 ←
        match fo with
        | some filename =>
          match name with
          | .ident b =>
            .ok { st1 with namespaceImports := insertA st1.namespaceImports b filename }
          | .object props => recordDestructuredImport R st1 filename props
          | _ => .error "not yet implemented"
        | none => .ok st1
      visitExpr R st2 init

def visitVarDeclList (R : Sym → ModId → Resolution) (st : FSt) :
    List VarDeclarator → Except String FSt
  | [] => .ok st
  | v :: rest => do
    let st1 ← visitVarDeclarator R st v
    visitVarDeclList R st1 rest
end

/-- The fold over an import declaration's specifiers
(lib.rs:253-283). -/
def visitImportSpecifiers (R : Sym → ModId → Resolution) (st : FSt)
    (src : String) : List ImportSpecifier → Except String FSt
  | [] => .ok st
  | spec :: rest => do
    let st1 ←
      match spec with
      | .namedS localName imported =>
        let atom :=
          match imported with
          | some i => exportNameAtom i
          | none => localName
        recordImport R st src atom
      | .defaultS _ => recordImport R st src "default"
      | .namespaceS localName =>
        .ok { st with namespaceImports := insertA st.namespaceImports localName src }
    visitImportSpecifiers R st1 src rest

/-- `export const [a, b] = ..` array elements (lib.rs:309-323): only
identifier elements are accepted, anything else panics. -/
def exportArrayElems (st : FSt) : List (Option Pat) → Except String FSt
  | [] => .ok st
  | some (Pat.ident s) :: rest => exportArrayElems (recordExport st s s) rest
  | _ :: _ => .error "unknown array export pat"

/-- `export const {a, b: c} = ..` object props (lib.rs:325-346). -/
def exportObjectProps (st : FSt) : List ObjectPatProp → Except String FSt
  | [] => .ok st
  | .assign key :: rest => exportObjectProps (recordExport st key key) rest
  | .keyValue (.ident k) v :: rest =>
    match v with
    | .ident b => exportObjectProps (recordExport st k b) rest
    | _ => .error "unknown object export kv_pat_prop"
  | .keyValue _ _ :: _ => .error "unknown object export kv_pat_prop"
  | .rest :: _ => .error "unknown object export pat"

/-- One exported var-declaration binding pattern (lib.rs:298-355). -/
def exportVarPat (st : FSt) : Pat → Except String FSt
  | .ident s => .ok (recordExport st s s)
  | .array elems => exportArrayElems st elems
  | .object props => exportObjectProps st props
  | .otherPat => .error "unknown decl.name"

def exportVarDecls (st : FSt) : List VarDeclarator → Except String FSt
  | [] => .ok st
  | .mk name _ :: rest => do
    let st1 ← exportVarPat st name
    exportVarDecls st1 rest

/-- The fold over a named-export declaration's specifiers
(lib.rs:382-407). -/
def exportNamedSpecs (st : FSt) : List ExportSpecifier → FSt
  | [] => st
  | spec :: rest =>
    let st1 :=
      match spec with
      | .namedS orig exported =>
        let origAtom := exportNameAtom orig
        let exportedAtom :=
          match exported with
          | some ex => exportNameAtom ex
          | none => origAtom
        recordExport st exportedAtom origAtom
      | .namespaceS name =>
        let atom := exportNameAtom name
        recordExport st atom atom
      | .defaultS => recordExport st "default" "default"
    exportNamedSpecs st1 rest

/-- The classification part of the overridden `visit_module_decl`
(lib.rs:251-425), before children are visited. -/
def moduleDeclRecord (R : Sym → ModId → Resolution) (st : FSt) :
    ModuleDecl → Except String FSt
  | .importD specifiers src => visitImportSpecifiers R st src specifiers
  | .exportDeclD d =>
    match d with
    | .classD i => .ok (recordExport st i i)
    | .fnD i => .ok (recordExport st i i)
    | .varD decls => exportVarDecls st decls
    | .tsInterface i => .ok (recordTypeExport st i i)
    | .tsTypeAlias i => .ok (recordTypeExport st i i)
    | .tsEnum i => .ok (recordExport st i i)
    | .otherDecl =>
      .ok { st with log := ("WARNING " ++ st.filename ++ " unhandled export namespace")
                           :: st.log }
  | .exportNamedD specifiers => .ok (exportNamedSpecs st specifiers)
  | .exportAllD src => recordExportAll R st src
  | .exportDefaultDeclD => .ok (recordExport st "default" "default")
  | .exportDefaultExprD _ => .ok (recordExport st "default" "default")
  | .otherModuleDecl =>
    .ok { st with log := ("WARNING " ++ st.filename ++ " unhandled ModuleDecl") :: st.log }

/-- Children of a `Decl` (class and function bodies are opaque in this
embedding; var declarations re-enter the overridden
`visit_var_declarator`). -/
def visitDecl (R : Sym → ModId → Resolution) (st : FSt) : Decl → Except String FSt
  | .varD decls => visitVarDeclList R st decls
  | _ => .ok st

/-- The overridden `visit_module_decl`: classification, then
`decl.visit_children_with(self)` (lib.rs:426). -/
def visitModuleDecl (R : Sym → ModId → Resolution) (st : FSt) (d : ModuleDecl) :
    Except String FSt := do
  let st1 ← moduleDeclRecord R st d
  match d with
  | .exportDeclD dd => visitDecl R st1 dd
  | .exportDefaultExprD e => visitExpr R st1 e
  | _ => .ok st1

def visitModuleItem (R : Sym → ModId → Resolution) (st : FSt) :
    ModuleItem → Except String FSt
  | .moduleDecl d => visitModuleDecl R st d
  | .stmt s => visitStmt R st s

/-- `module.visit_with(&mut visitor)` over the module body. -/
def visitModule (R : Sym → ModId → Resolution) (st : FSt) :
    Module → Except String FSt
  | [] => .ok st
  | item :: rest => do
    let st1 ← visitModuleItem R st item
    visitModule R st1 rest

/-! ### The Analyzer: accumulators, add_file, finalize, trace_export. -/

/-- `ModuleExports` (lib.rs:593). -/
structure ModuleExports where
  exports : List (Sym × Sym)
  typeExports : List (Sym × Sym)
  exportAlls : List ModId
  deriving DecidableEq

/-- `ModuleResults` (lib.rs:601).  The unused sets hold the original
names inserted by `finalize` (HashSets, modelled as duplicate-free
lists). -/
structure ModuleResults where
  unusedExports : List Sym
  unusedTypeExports : List Sym
  deriving DecidableEq

/-- The `Analyzer` accumulators (lib.rs:607): the shared Usage Index, the
Module Export Registry, and the stdout log.  Source-map and diagnostic
handler state carry no analysis content and are omitted. -/
structure AnalyzerSt where
  importUsage : List (ModId × List Sym)
  exports : List (ModId × ModuleExports)
  log : List String
  deriving DecidableEq

/-- `Analyzer::add_file` (lib.rs:630).  Loading and parsing are done by
external collaborators (swc); the parse outcome is the `parsed` parameter,
`none` meaning `parse_module` failed, which the Rust code turns into a
panic via `.expect("failed to parser module")` (lib.rs:665-671). -/
def addFile (R : Sym → ModId → Resolution) (st : AnalyzerSt) (filePath : ModId)
    (parsed : Option Module) : Except String AnalyzerSt :=
  match parsed with
  | none => .error "failed to parser module"
  | some m => do
    let fst0 : FSt :=
      { filename := filePath, exports := [], typeExports := [], namespaceImports := [],
        exportAlls := [], usage := st.importUsage, log := st.log }
    let fst ← visitModule R fst0 m
    .ok { importUsage := fst.usage,
          exports := insertA st.exports filePath
            ⟨fst.exports, fst.typeExports, fst.exportAlls⟩,
          log := fst.log }

/-- A driver run: files fed to `add_file` one at a time; the first parse
failure aborts the whole run (the Rust panic unwinds). -/
def runAnalysis (R : Sym → ModId → Resolution)
    (files : List (ModId × Option Module)) (st : AnalyzerSt) :
    Except String AnalyzerSt :=
  files.foldlM (fun s fp => addFile R s fp.1 fp.2) st

/-- Whether a module export record declares `symbol` in its value or type
table (the test at lib.rs:756). -/
def declares (ex : ModuleExports) (symbol : Sym) : Bool :=
  (lookupA ex.exports symbol).isSome || (lookupA ex.typeExports symbol).isSome

/-- One step of the loop over `exports.export_alls.iter().rev()`
(lib.rs:760-765): once a hit is found the loop has returned and later
edges are not traced; a still-recursing trace (`none`) propagates. -/
def traceEdgeStep (go : ModId → Option (Option ModId))
    (acc : Option (Option ModId)) (t : ModId) : Option (Option ModId) :=
  match acc with
  | none => none
  | some (some p) => some (some p)
  | some none => go t

/-- `Analyzer::trace_export` (lib.rs:749).  The Rust recursion carries no
visited set and can diverge on cyclic export-all graphs, so the embedding
takes a fuel argument bounding the recursion depth: `none` means the fuel
ran out (the Rust code would still be recursing), `some none` is the Rust
`None` ("not found"), `some (some m)` the Rust `Some(providing_module)`.
The edge loop folds `traceEdgeStep` over the reversed edge list, which
returns the first recursive hit exactly as the Rust `for` loop does. -/
def traceExport (E : List (ModId × ModuleExports)) :
    Nat → ModId → Sym → Option (Option ModId)
  | 0, _, _ => none
  | fuel + 1, filename, symbol =>
    match lookupA E filename with
    | none => some none
    | some ex =>
      if declares ex symbol then some (some filename)
      else
        (ex.exportAlls.reverse).foldl
          (traceEdgeStep (fun t => traceExport E fuel t symbol)) (some none)

/-- The `used` test of `finalize` step 1 (lib.rs:698-701 and 711-714):
whether the module's direct usage facts contain the exported name. -/
def usedB (imports : Option (List Sym)) (exportedName : Sym) : Bool :=
  match imports with
  | some v => v.contains exportedName
  | none => false

/-- One iteration of the step-1 table loop: an export entry
(exported name, original name) whose exported name has no direct usage
fact contributes its ORIGINAL name to the locally-unused set. -/
def buildUnusedStep (imports : Option (List Sym)) (acc : List Sym)
    (p : Sym × Sym) : List Sym :=
  if usedB imports p.1 then acc else insertSet acc p.2

/-- The per-table loop of `finalize` step 1 (lib.rs:696-720). -/
def buildUnused (imports : Option (List Sym)) (tbl : List (Sym × Sym)) : List Sym :=
  tbl.foldl (buildUnusedStep imports) []

/-- One module's step-1 results (lib.rs:690-720). -/
def initModuleResults (imports : Option (List Sym)) (ex : ModuleExports) :
    ModuleResults :=
  { unusedExports := buildUnused imports ex.exports
  , unusedTypeExports := buildUnused imports ex.typeExports }

/-- Step 1 of `finalize` over every analyzed module (lib.rs:689-723). -/
def initResults (st : AnalyzerSt) : List (ModId × ModuleResults) :=
  st.exports.map (fun p => (p.1, initModuleResults (lookupA st.importUsage p.1) p.2))

/-- `module_results.unused_exports.remove(&symbol);
module_results.unused_type_exports.remove(&symbol);` (lib.rs:733-734):
the traced symbol is removed from BOTH unused sets. -/
def cleanBoth (mr : ModuleResults) (s : Sym) : ModuleResults :=
  { unusedExports := mr.unusedExports.filter (fun x => x != s)
  , unusedTypeExports := mr.unusedTypeExports.filter (fun x => x != s) }

/-- `results.get_mut(&providing_module)` followed by the two removals.
The providing module returned by `trace_export` always has a results
entry (it is a key of `self.exports`), so the Rust `.unwrap()` cannot
fire; absent keys are a no-op here. -/
def removeBoth (res : List (ModId × ModuleResults)) (p : ModId) (s : Sym) :
    List (ModId × ModuleResults) :=
  res.map (fun q => if q.1 = p then (q.1, cleanBoth q.2 s) else q)

/-- One iteration of the step-2 loop (lib.rs:726-739) on a usage fact:
trace it; a hit removes the symbol from both unused sets of the providing
module, a miss (`None => continue`) changes nothing, and exhausted fuel
(`none`) models the Rust recursion still running. -/
def applyFact (E : List (ModId × ModuleExports)) (fuel : Nat)
    (res : List (ModId × ModuleResults)) (fact : ModId × Sym) :
    Option (List (ModId × ModuleResults)) :=
  match traceExport E fuel fact.1 fact.2 with
  | none => none
  | some none => some res
  | some (some p) => some (removeBoth res p fact.2)

/-- The usage facts of the Usage Index as a flat list, outer map entries in
list order, inner set elements in list order (HashMap iteration order is
arbitrary in Rust; order-independence is proved separately). -/
def flattenFacts (u : List (ModId × List Sym)) : List (ModId × Sym) :=
  (u.map (fun p => p.2.map (fun s => (p.1, s)))).flatten

/-- Step 2 of `finalize`: fold `applyFact` over the usage facts. -/
def step2 (E : List (ModId × ModuleExports)) (fuel : Nat)
    (facts : List (ModId × Sym)) (res : List (ModId × ModuleResults)) :
    Option (List (ModId × ModuleResults)) :=
  facts.foldlM (fun r f => applyFact E fuel r f) res

/-- `results.retain(..)` (lib.rs:741-744): keep a module only when one of
its unused sets is non-empty. -/
def retainNonEmpty (res : List (ModId × ModuleResults)) :
    List (ModId × ModuleResults) :=
  res.filter (fun p => !(p.2.unusedExports.isEmpty && p.2.unusedTypeExports.isEmpty))

/-- `Analyzer::finalize` (lib.rs:687): step 1, step 2 over all usage facts,
then retain.  `fuel` bounds the depth of the unguarded `trace_export`
recursion; `none` means some trace was still recursing at that depth. -/
def finalize (fuel : Nat) (st : AnalyzerSt) :
    Option (List (ModId × ModuleResults)) :=
  (step2 st.exports fuel (flattenFacts st.importUsage) (initResults st)).map
    retainNonEmpty

/-- `finalize` as an API call: the Finalizer only reads the accumulators
(the Rust loops take `&self.exports` and `&self.import_usage`) and returns
a derived report, so the state component is returned unchanged. -/
def finalizeCall (fuel : Nat) (st : AnalyzerSt) :
    Option (List (ModId × ModuleResults)) × AnalyzerSt :=
  (finalize fuel st, st)

/-- The reported unused value-export set of module `A` (empty when `A` is
not reported). -/
def unusedValueOf (res : List (ModId × ModuleResults)) (A : ModId) : List Sym :=
  match lookupA res A with
  | some mr => mr.unusedExports
  | none => []

/-- The reported unused type-export set of module `A`. -/
def unusedTypeOf (res : List (ModId × ModuleResults)) (A : ModId) : List Sym :=
  match lookupA res A with
  | some mr => mr.unusedTypeExports
  | none => []

/-- The pure step-2 update used when no trace runs out of fuel: a traced
hit removes the symbol from both unused sets of the providing module, a
miss changes nothing. -/
def applyFactP (E : List (ModId × ModuleExports)) (fuel : Nat)
    (res : List (ModId × ModuleResults)) (fact : ModId × Sym) :
    List (ModId × ModuleResults) :=
  match traceExport E fuel fact.1 fact.2 with
  | some (some p) => removeBoth res p fact.2
  | _ => res

/-! ### Helper lemmas about the association-list and set operations -/

theorem lookupA_mapVal {α β : Type} (f : String → α → β) :
    ∀ (l : List (String × α)) (k : String),
      lookupA (l.map (fun p => (p.1, f p.1 p.2))) k = (lookupA l k).map (f k) := by
  intro l k
  induction l with
  | nil => rfl
  | cons h t ih =>
    obtain ⟨k0, v0⟩ := h
    by_cases hk : k0 = k
    · subst hk; simp [lookupA]
    · simp [lookupA, hk, ih]

theorem removeBoth_eq_mapVal (res : List (ModId × ModuleResults)) (p : ModId)
    (s : Sym) :
    removeBoth res p s =
      res.map (fun q => (q.1, if q.1 = p then cleanBoth q.2 s else q.2)) := by
  unfold removeBoth
  refine List.map_congr_left ?_
  intro q _
  by_cases hp : q.1 = p <;> simp [hp]

theorem lookupA_removeBoth (res : List (ModId × ModuleResults)) (p A : ModId)
    (s : Sym) :
    lookupA (removeBoth res p s) A =
      (lookupA res A).map (fun mr => if A = p then cleanBoth mr s else mr) := by
  rw [removeBoth_eq_mapVal]
  exact lookupA_mapVal (fun k v => if k = p then cleanBoth v s else v) res A

theorem unusedValueOf_removeBoth (res : List (ModId × ModuleResults))
    (p A : ModId) (s : Sym) :
    unusedValueOf (removeBoth res p s) A =
      if A = p then (unusedValueOf res A).filter (fun x => x != s)
      else unusedValueOf res A := by
  unfold unusedValueOf
  rw [lookupA_removeBoth]
  cases lookupA res A with
  | none => by_cases hp : A = p <;> simp [hp, cleanBoth]
  | some mr => by_cases hp : A = p <;> simp [hp, cleanBoth]

theorem unusedTypeOf_removeBoth (res : List (ModId × ModuleResults))
    (p A : ModId) (s : Sym) :
    unusedTypeOf (removeBoth res p s) A =
      if A = p then (unusedTypeOf res A).filter (fun x => x != s)
      else unusedTypeOf res A := by
  unfold unusedTypeOf
  rw [lookupA_removeBoth]
  cases lookupA res A with
  | none => by_cases hp : A = p <;> simp [hp, cleanBoth]
  | some mr => by_cases hp : A = p <;> simp [hp, cleanBoth]

theorem lookupA_retainNonEmpty (res : List (ModId × ModuleResults))
    (A : ModId) (mr : ModuleResults) (h : lookupA res A = some mr)
    (hne : mr.unusedExports ≠ [] ∨ mr.unusedTypeExports ≠ []) :
    lookupA (retainNonEmpty res) A = some mr := by
  have hb : (!(mr.unusedExports.isEmpty && mr.unusedTypeExports.isEmpty)) = true := by
    rcases hne with h1 | h1 <;> simp [h1]
  induction res with
  | nil => simp [lookupA] at h
  | cons hd t ih =>
    obtain ⟨k0, v0⟩ := hd
    rw [retainNonEmpty, List.filter_cons]
    by_cases hk : k0 = A
    · subst hk
      have hv : v0 = mr := by simpa [lookupA] using h
      subst hv
      rw [if_pos hb]
      simp [lookupA]
    · have h2 : lookupA t A = some mr := by simpa [lookupA, hk] using h
      have ih2 := ih h2
      rw [retainNonEmpty] at ih2
      by_cases hp : (!(v0.unusedExports.isEmpty && v0.unusedTypeExports.isEmpty)) = true
      · rw [if_pos hp, lookupA, if_neg hk]
        exact ih2
      · rw [if_neg hp]
        exact ih2

theorem mem_insertSet_self (l : List Sym) (s : Sym) : s ∈ insertSet l s := by
  unfold insertSet
  by_cases h : s ∈ l <;> simp [h]

theorem mem_insertSet_of_mem (l : List Sym) (a s : Sym) (h : a ∈ l) :
    a ∈ insertSet l s := by
  unfold insertSet
  by_cases hs : s ∈ l <;> simp [hs, h]

theorem buildUnused_foldl_mem (imports : Option (List Sym)) (en orig : Sym) :
    ∀ (tbl : List (Sym × Sym)) (acc : List Sym),
      ((en, orig) ∈ tbl ∧ usedB imports en = false) ∨ orig ∈ acc →
      orig ∈ tbl.foldl (buildUnusedStep imports) acc := by
  intro tbl
  induction tbl with
  | nil =>
    intro acc h
    rcases h with ⟨hmem, _⟩ | hacc
    · simp at hmem
    · simpa using hacc
  | cons hd t ih =>
    intro acc h
    rw [List.foldl_cons]
    rcases h with ⟨hmem, hunused⟩ | hacc
    · rcases List.mem_cons.mp hmem with heq | ht
      · subst heq
        refine ih _ (Or.inr ?_)
        simp [buildUnusedStep, hunused, mem_insertSet_self]
      · exact ih _ (Or.inl ⟨ht, hunused⟩)
    · refine ih _ (Or.inr ?_)
      unfold buildUnusedStep
      by_cases hu : usedB imports hd.1 = true
      · simpa [hu] using hacc
      · rw [if_neg hu]
        exact mem_insertSet_of_mem _ _ _ hacc

/-- An export entry whose exported name has no direct usage fact leaves
its original name in the step-1 locally-unused set. -/
theorem buildUnused_mem (imports : Option (List Sym)) (tbl : List (Sym × Sym))
    (en orig : Sym) (hmem : (en, orig) ∈ tbl) (hunused : usedB imports en = false) :
    orig ∈ buildUnused imports tbl :=
  buildUnused_foldl_mem imports en orig tbl [] (Or.inl ⟨hmem, hunused⟩)

theorem applyFact_eq_none_iff (E : List (ModId × ModuleExports)) (fuel : Nat)
    (res : List (ModId × ModuleResults)) (f : ModId × Sym) :
    applyFact E fuel res f = none ↔ traceExport E fuel f.1 f.2 = none := by
  unfold applyFact
  cases traceExport E fuel f.1 f.2 with
  | none => simp
  | some o => cases o <;> simp

/-- A symbol in the locally-unused value set of module `A` survives step 2
when no processed usage fact for that symbol is traced to `A`. -/
theorem step2_mem_value (E : List (ModId × ModuleExports)) (fuel : Nat) :
    ∀ (facts : List (ModId × Sym)) (res res' : List (ModId × ModuleResults)),
      step2 E fuel facts res = some res' →
      ∀ (A : ModId) (s : Sym), s ∈ unusedValueOf res A →
      (∀ f ∈ facts, ¬(f.2 = s ∧ traceExport E fuel f.1 f.2 = some (some A))) →
      s ∈ unusedValueOf res' A := by
  intro facts
  induction facts with
  | nil =>
    intro res res' h A s hs _
    unfold step2 at h
    simp only [List.foldlM_nil] at h
    cases h
    exact hs
  | cons f rest ih =>
    intro res res' h A s hs hno
    unfold step2 at h
    rw [List.foldlM_cons] at h
    cases happ : applyFact E fuel res f with
    | none => rw [happ] at h; cases h
    | some res1 =>
      rw [happ] at h
      refine ih res1 res' h A s ?_ (fun g hg => hno g (List.mem_cons_of_mem f hg))
      unfold applyFact at happ
      cases ht : traceExport E fuel f.1 f.2 with
      | none => rw [ht] at happ; cases happ
      | some o =>
        cases o with
        | none =>
          rw [ht] at happ
          cases happ
          exact hs
        | some p =>
          rw [ht] at happ
          cases happ
          rw [unusedValueOf_removeBoth]
          by_cases hA : A = p
          · subst hA
            have hne : f.2 ≠ s := by
              intro hf
              exact hno f (List.mem_cons_self f rest) ⟨hf, ht⟩
            rw [if_pos rfl]
            exact List.mem_filter_of_mem hs (by simpa using (Ne.symm hne))
          · rw [if_neg hA]
            exact hs

/-- A symbol in the locally-unused type set of module `A` survives step 2
when no processed usage fact for that symbol is traced to `A`. -/
theorem step2_mem_type (E : List (ModId × ModuleExports)) (fuel : Nat) :
    ∀ (facts : List (ModId × Sym)) (res res' : List (ModId × ModuleResults)),
      step2 E fuel facts res = some res' →
      ∀ (A : ModId) (s : Sym), s ∈ unusedTypeOf res A →
      (∀ f ∈ facts, ¬(f.2 = s ∧ traceExport E fuel f.1 f.2 = some (some A))) →
      s ∈ unusedTypeOf res' A := by
  intro facts
  induction facts with
  | nil =>
    intro res res' h A s hs _
    unfold step2 at h
    simp only [List.foldlM_nil] at h
    cases h
    exact hs
  | cons f rest ih =>
    intro res res' h A s hs hno
    unfold step2 at h
    rw [List.foldlM_cons] at h
    cases happ : applyFact E fuel res f with
    | none => rw [happ] at h; cases h
    | some res1 =>
      rw [happ] at h
      refine ih res1 res' h A s ?_ (fun g hg => hno g (List.mem_cons_of_mem f hg))
      unfold applyFact at happ
      cases ht : traceExport E fuel f.1 f.2 with
      | none => rw [ht] at happ; cases happ
      | some o =>
        cases o with
        | none =>
          rw [ht] at happ
          cases happ
          exact hs
        | some p =>
          rw [ht] at happ
          cases happ
          rw [unusedTypeOf_removeBoth]
          by_cases hA : A = p
          · subst hA
            have hne : f.2 ≠ s := by
              intro hf
              exact hno f (List.mem_cons_self f rest) ⟨hf, ht⟩
            rw [if_pos rfl]
            exact List.mem_filter_of_mem hs (by simpa using (Ne.symm hne))
          · rw [if_neg hA]
            exact hs

/-! ### Unfolding lemmas for the fueled trace -/

theorem traceExport_zero (E : List (ModId × ModuleExports)) (filename : ModId)
    (symbol : Sym) : traceExport E 0 filename symbol = none := rfl

theorem traceExport_succ (E : List (ModId × ModuleExports)) (fuel : Nat)
    (filename : ModId) (symbol : Sym) :
    traceExport E (fuel + 1) filename symbol =
      match lookupA E filename with
      | none => some none
      | some ex =>
        if declares ex symbol then some (some filename)
        else
          (ex.exportAlls.reverse).foldl
            (traceEdgeStep (fun t => traceExport E fuel t symbol)) (some none) := rfl

/-- Once the edge loop has found a hit, later edges change nothing (the
Rust loop has already returned). -/
theorem traceEdge_foldl_hit (go : ModId → Option (Option ModId)) (p : ModId) :
    ∀ l : List ModId, l.foldl (traceEdgeStep go) (some (some p)) = some (some p) := by
  intro l
  induction l with
  | nil => rfl
  | cons t rest ih => simpa [traceEdgeStep] using ih

/-! ### Concrete scenario states used by the claims -/

/-- A resolver mapping nothing (every specifier is `Resolution::Empty`). -/
def resolverEmpty : Sym → ModId → Resolution := fun _ _ => .empty

/-- A fresh FileAnalyzer state for file "f". -/
def fileSt0 : FSt :=
  { filename := "f", exports := [], typeExports := [], namespaceImports := [],
    exportAlls := [], usage := [], log := [] }

/-- An export registry whose export-all edges form a cycle: module A
star-exports B and B star-exports A; neither declares any symbol. -/
def cycleRegistry : List (ModId × ModuleExports) :=
  [("A", ⟨[], [], ["B"]⟩), ("B", ⟨[], [], ["A"]⟩)]

/-- The shadowing scenario of the spec: M4 exports X, M5 exports X, M6
declares `export * from M4` then `export * from M5`, M7 does
`import { X } from M6` (recorded as the usage fact (M6, X)). -/
def shadowSt : AnalyzerSt :=
  { importUsage := [("M6", ["X"])]
  , exports := [("M4", ⟨[("X", "X")], [], []⟩), ("M5", ⟨[("X", "X")], [], []⟩),
                ("M6", ⟨[], [], ["M4", "M5"]⟩), ("M7", ⟨[], [], []⟩)]
  , log := [] }

/-- `import("m").then(mod => { const m2 = require("x"); })`: a dynamic
module load whose `.then` callback binds `mod` and whose body introduces
a second alias via a require declarator. -/
def thenCallbackExpr : Expr :=
  .call (.expr (.member (.call .importC [.lit (.str "m")]) (.ident "then")))
    [.arrow [.ident "mod"]
      [.varDecl [.mk (.ident "m2")
        (some (.call (.expr (.ident "require")) [.lit (.str "x")]))]]]

/-- `export { x as default }` as swc parses it: a Named export specifier
with orig `x` and exported `default`. -/
def aliasDefaultDecl : ModuleDecl :=
  .exportNamedD [.namedS (.ident "x") (some (.ident "default"))]

/-! ### The claims -/

/-- Auxiliary for C3: on the cyclic registry, tracing from A or from B
never terminates: for every recursion-depth fuel the fueled trace is still
recursing (it never reaches a "found" nor a "not found" answer). -/
theorem trace_cycle_pending : ∀ fuel : Nat,
    traceExport cycleRegistry fuel "A" "S" = none ∧
    traceExport cycleRegistry fuel "B" "S" = none := by
  intro fuel
  induction fuel with
  | zero => exact ⟨rfl, rfl⟩
  | succ n ih =>
    obtain ⟨ihA, ihB⟩ := ih
    have hA : lookupA cycleRegistry "A" = some ⟨[], [], ["B"]⟩ := rfl
    have hB : lookupA cycleRegistry "B" = some ⟨[], [], ["A"]⟩ := rfl
    constructor
    · rw [traceExport_succ, hA]
      simpa [declares, lookupA, traceEdgeStep] using ihB
    · rw [traceExport_succ, hB]
      simpa [declares, lookupA, traceEdgeStep] using ihA

/-- C3: the claim says traceExport carries a visited set of module
identities and terminates with "not found" on cyclic export-all graphs.
The code (lib.rs:749-768) carries no visited set: on the two-module cycle
`cycleRegistry` (A re-exports B, B re-exports A, neither declares "S"),
the recursion of `trace_export` never returns — the fueled embedding
reports "still recursing" at every depth.  The spec itself flags the
missing guard as a required hardening, so the code, not the claim, is
wrong. -/
theorem C3_trace_cycle_never_returns :
    ∀ fuel : Nat, traceExport cycleRegistry fuel "A" "S" = none :=
  fun fuel => (trace_cycle_pending fuel).1

/-- C4: the claim says every namespace alias binding introduced inside a
nested callback body is removed (or the shadowed binding restored) when
traversal leaves the body.  The code violates this: `visit_call_expr`
(lib.rs:576-585) restores a previous binding only when one existed, so a
fresh callback-parameter binding stays in the map, and bindings added by
`visit_var_declarator` are never popped (the lib.rs:488 TODO).  Starting
from an empty binding map, visiting
`import("m").then(mod => { const m2 = require("x"); })` leaves BOTH
bindings (`mod` and `m2`) in `namespace_imports`, where the claim requires
the map to return to its initial empty value. -/
theorem C4_callback_binding_leak :
    fileSt0.namespaceImports = [] ∧
    (visitExpr resolverEmpty fileSt0 thenCallbackExpr).map
        (fun s => s.namespaceImports) = .ok [("mod", "m"), ("m2", "x")] :=
  ⟨rfl, rfl⟩

/-- C5: when a traced module does not itself declare the symbol,
`trace_export` iterates its export-all edges in reverse declaration order
and returns the first recursive hit; hence the last-declared star-export
target that declares the symbol wins.  First conjunct: whenever the
LAST-declared edge target `T` declares `S` and `M` itself does not, the
trace attributes `S` to `T` (any earlier edges `es` are shadowed).
Second conjunct: the spec's M4/M5/M6/M7 scenario finalizes to
`unused(M4) = {X}` with M5 absent from the report (its unused set is
empty, so `retain` drops it). -/
theorem C5_reverse_order_shadowing :
    (∀ (E : List (ModId × ModuleExports)) (fuel : Nat) (M T : ModId) (S : Sym)
       (ex exT : ModuleExports) (es : List ModId),
       lookupA E M = some ex → declares ex S = false →
       ex.exportAlls = es ++ [T] →
       lookupA E T = some exT → declares exT S = true →
       traceExport E (fuel + 2) M S = some (some T)) ∧
    finalize 3 shadowSt = some [("M4", ⟨["X"], []⟩)] := by
  constructor
  · intro E fuel M T S ex exT es hM hdecl hedges hT hdT
    show traceExport E (fuel + 1 + 1) M S = some (some T)
    rw [traceExport_succ, hM]
    simp only [hdecl, hedges, List.reverse_append, List.reverse_cons,
      List.reverse_nil, List.nil_append, List.singleton_append, Bool.false_eq_true,
      if_false, List.foldl_cons]
    have hstep : traceEdgeStep (fun t => traceExport E (fuel + 1) t S)
        (some none) T = some (some T) := by
      show traceExport E (fuel + 1) T S = some (some T)
      rw [traceExport_succ, hT]
      simp [hdT]
    rw [hstep, traceEdge_foldl_hit]
  · rfl

/-- C5 witness: the general shadowing conjunct applied to the concrete
scenario registry: tracing (M6, X) lands on M5, the later-declared
star-export target. -/
theorem C5_witness :
    traceExport shadowSt.exports 3 "M6" "X" = some (some "M5") :=
  C5_reverse_order_shadowing.1 shadowSt.exports 1 "M6" "M5" "X"
    ⟨[], [], ["M4", "M5"]⟩ ⟨[("X", "X")], [], []⟩ ["M4"] rfl rfl rfl rfl rfl

/-- C6 counterexample: for `export { x as default }` the extractor records
the value-export entry ("default", "x") — exported name "default", original
name `x` — not ("default", "default") as the claim states. -/
theorem C6_counterexample :
    (visitModuleDecl resolverEmpty fileSt0 aliasDefaultDecl).map
        (fun s => lookupA s.exports "default") = .ok (some "x") ∧
    "x" ≠ "default" :=
  ⟨rfl, by decide⟩

/-- C6 amended: `export { x as default }` records the entry with exported
name "default" and original name `x` (lib.rs:384-393, the Named specifier
path keeps the original local name); default export declarations and
default export expressions record ("default", "default")
(lib.rs:412-417). -/
theorem C6_default_export_entries :
    (∀ (R : Sym → ModId → Resolution) (st : FSt) (x : Sym),
       visitModuleDecl R st (.exportNamedD [.namedS (.ident x) (some (.ident "default"))])
         = .ok { st with exports := insertA st.exports "default" x }) ∧
    (∀ (R : Sym → ModId → Resolution) (st : FSt),
       visitModuleDecl R st .exportDefaultDeclD
         = .ok { st with exports := insertA st.exports "default" "default" }) ∧
    (∀ (R : Sym → ModId → Resolution) (st : FSt),
       visitModuleDecl R st (.exportDefaultExprD .otherExpr)
         = .ok { st with exports := insertA st.exports "default" "default" }) :=
  ⟨fun _ _ _ => rfl, fun _ _ => rfl, fun _ _ => rfl⟩

/-- C7: `Builtin` and `Empty` ("Ignored") resolver outcomes suppress
recording with no other state change, and resolver errors are non-fatal:
a diagnostic line is printed and nothing is recorded — for both the
usage-fact recorder (`record_import`, away from its csstype special case)
and the export-all recorder (`record_export_all`).  In every case the
call returns `.ok` (extraction of the rest of the file continues) and the
usage index, export tables and edge list are untouched. -/
theorem C7_resolver_outcomes_nonfatal :
    ∀ (R : Sym → ModId → Resolution) (st : FSt) (path symbol : Sym),
      path ≠ "csstype" →
      (∀ b, R path st.filename = .builtin b →
         recordImport R st path symbol = .ok st) ∧
      (R path st.filename = .empty → recordImport R st path symbol = .ok st) ∧
      (∀ e, R path st.filename = .err e →
         recordImport R st path symbol =
           .ok { st with log := ("ERROR " ++ st.filename ++ " " ++ e) :: st.log }) ∧
      (∀ b, R path st.filename = .builtin b → recordExportAll R st path = .ok st) ∧
      (R path st.filename = .empty → recordExportAll R st path = .ok st) ∧
      (∀ e, R path st.filename = .err e →
         recordExportAll R st path =
           .ok { st with log := ("ERROR " ++ st.filename ++ " " ++ e) :: st.log }) := by
  intro R st path symbol hcss
  refine ⟨fun b h => ?_, fun h => ?_, fun e h => ?_,
          fun b h => ?_, fun h => ?_, fun e h => ?_⟩ <;>
    simp [recordImport, recordExportAll, hcss, h]

/-- A resolver with one builtin, one ignored and one failing specifier,
used to instantiate C7. -/
def resolverProbe : Sym → ModId → Resolution := fun p _ =>
  if p = "b" then .builtin "fs" else if p = "m" then .empty else .err "oops"

/-- C7 witness: the builtin outcome at a concrete resolver and state. -/
theorem C7_witness :
    "b" ≠ "csstype" ∧ recordImport resolverProbe fileSt0 "b" "X" = .ok fileSt0 :=
  ⟨by decide,
   (C7_resolver_outcomes_nonfatal resolverProbe fileSt0 "b" "X" (by decide)).1 "fs" rfl⟩

/-- C8: a file whose source fails to parse is fatal for the run:
`add_file` panics (`.expect("failed to parser module")`), modelled as the
run aborting with that error; consequently a driver run yields an analyzer
state (from which results could be produced) only when every file in it
parsed. -/
theorem C8_parse_failure_fatal :
    (∀ (R : Sym → ModId → Resolution) (st : AnalyzerSt) (f : ModId),
       addFile R st f none = .error "failed to parser module") ∧
    (∀ (R : Sym → ModId → Resolution) (files : List (ModId × Option Module))
       (st st' : AnalyzerSt), runAnalysis R files st = .ok st' →
       ∀ fp ∈ files, fp.2 ≠ none) := by
  constructor
  · intro R st f
    rfl
  · intro R files
    induction files with
    | nil =>
      intro st st' _ fp hfp
      simp at hfp
    | cons g rest ih =>
      intro st st' hrun fp hfp
      unfold runAnalysis at hrun
      rw [List.foldlM_cons] at hrun
      cases hg : addFile R st g.1 g.2 with
      | error e =>
        rw [hg] at hrun
        exact Except.noConfusion hrun
      | ok st1 =>
        rw [hg] at hrun
        rcases List.mem_cons.mp hfp with heq | hrest
        · subst heq
          intro hnone
          rw [hnone] at hg
          rw [show addFile R st fp.1 none = .error "failed to parser module" from rfl] at hg
          exact Except.noConfusion hg
        · exact ih st1 st' hrun fp hrest

/-- C8 witness: a run whose single file parses succeeds, and the second
conjunct applied to it shows its parse outcome was not `none`. -/
theorem C8_witness : (some ([] : Module)) ≠ none :=
  C8_parse_failure_fatal.2 resolverEmpty [("a", some [])]
    ⟨[], [], []⟩ ⟨[], [("a", ⟨[], [], []⟩)], []⟩ rfl ("a", some [])
    (List.mem_singleton.mpr rfl)

/-- A resolver that maps the specifier "csstype" to the module "csslib"
(and everything else to `Empty`): C10 shows record_import never asks it. -/
def csstypeResolver : Sym → ModId → Resolution :=
  fun p _ => if p = "csstype" then .path "csslib" else .empty

/-- Registry state holding the csslib module that exports P. -/
def csstypeRegistrySt : AnalyzerSt :=
  { importUsage := [], exports := [("csslib", ⟨[("P", "P")], [], []⟩)], log := [] }

/-- A file doing `import { P } from "csstype"`. -/
def csstypeImportModule : Module :=
  [.moduleDecl (.importD [.namedS "P" none] "csstype")]

/-- C10: a usage through the literal specifier "csstype" is dropped before
the resolver is consulted: `record_import` returns after printing, with
the usage index (and all other accumulator state) unchanged, and the
result does not depend on the resolver at all.  Consequently analyzing a
file that consumes P only through "csstype" — under a resolver that WOULD
map csstype to csslib — records no usage fact, and finalize still reports
csslib's P unused. -/
theorem C10_csstype_skipped :
    (∀ (R : Sym → ModId → Resolution) (st : FSt) (symbol : Sym),
       recordImport R st "csstype" symbol =
         .ok { st with log := ("Got csstype: " ++ symbol) :: st.log }) ∧
    (∀ (R1 R2 : Sym → ModId → Resolution) (st : FSt) (symbol : Sym),
       recordImport R1 st "csstype" symbol = recordImport R2 st "csstype" symbol) ∧
    addFile csstypeResolver csstypeRegistrySt "app" (some csstypeImportModule) =
      .ok { importUsage := [],
            exports := [("csslib", ⟨[("P", "P")], [], []⟩), ("app", ⟨[], [], []⟩)],
            log := ["Got csstype: P"] } ∧
    finalize 1 { importUsage := [],
                 exports := [("csslib", ⟨[("P", "P")], [], []⟩), ("app", ⟨[], [], []⟩)],
                 log := ["Got csstype: P"] } =
      some [("csslib", ⟨["P"], []⟩)] :=
  ⟨fun _ _ _ => rfl, fun _ _ _ _ => rfl, rfl, rfl⟩

/-- C1 counterexample state: module M declares the value export ("S","S")
and the type export ("T","S") (exported name T, original name S); module W
declares nothing and star-exports M; the Usage Index holds the single fact
(W, S). -/
def valueTypeSt : AnalyzerSt :=
  { importUsage := [("W", ["S"])]
  , exports := [("W", ⟨[], [], ["M"]⟩), ("M", ⟨[("S", "S")], [("T", "S")], []⟩)]
  , log := [] }

/-- C1 counterexample.  Step 1 leaves M with unused value set {S} and
unused type set {S} (the sets hold ORIGINAL names, so the type export
("T","S") contributes S, not T).  Tracing the fact (W, S) lands on M via
M's VALUE table (the type table has no key S), yet finalize removes S from
BOTH sets, so M ends empty and is dropped: the whole report is [].  Under
the claim — a value-table hit clears the value set only, and the sets are
keyed by declared exported names — M's unused type set would still be
non-empty and M would be reported. -/
theorem C1_counterexample :
    initResults valueTypeSt = [("W", ⟨[], []⟩), ("M", ⟨["S"], ["S"]⟩)] ∧
    traceExport valueTypeSt.exports 2 "W" "S" = some (some "M") ∧
    lookupA (⟨[("S", "S")], [("T", "S")], []⟩ : ModuleExports).typeExports "S" = none ∧
    finalize 2 valueTypeSt = some [] :=
  ⟨rfl, rfl, rfl, rfl⟩

/-- C1 amended: when the traced module M declares S in its value or type
table, finalize attributes the usage to M by clearing S from BOTH of M's
locally-unused sets (which step 1 keys by original names), and a usage
fact whose trace returns "not found" leaves every module's unused sets
unchanged. -/
theorem C1_attribution_clears_both :
    (∀ (E : List (ModId × ModuleExports)) (fuel : Nat)
       (res : List (ModId × ModuleResults)) (M : ModId) (S : Sym)
       (ex : ModuleExports), lookupA E M = some ex → declares ex S = true →
       applyFact E (fuel + 1) res (M, S) = some (removeBoth res M S)) ∧
    (∀ (E : List (ModId × ModuleExports)) (fuel : Nat)
       (res : List (ModId × ModuleResults)) (F : ModId) (S : Sym),
       traceExport E fuel F S = some none →
       applyFact E fuel res (F, S) = some res) := by
  constructor
  · intro E fuel res M S ex hM hd
    have htr : traceExport E (fuel + 1) M S = some (some M) := by
      rw [traceExport_succ, hM]
      simp [hd]
    simp [applyFact, htr]
  · intro E fuel res F S h
    simp [applyFact, h]

/-- C1 witness: the amended attribution applied at the counterexample
state: the fact (M, S) on a module that declares S clears S from both of
its sets. -/
theorem C1_witness :
    lookupA valueTypeSt.exports "M" = some ⟨[("S", "S")], [("T", "S")], []⟩ ∧
    declares ⟨[("S", "S")], [("T", "S")], []⟩ "S" = true ∧
    applyFact valueTypeSt.exports 1 (initResults valueTypeSt) ("M", "S") =
      some (removeBoth (initResults valueTypeSt) "M" "S") :=
  ⟨rfl, rfl,
   C1_attribution_clears_both.1 valueTypeSt.exports 0 (initResults valueTypeSt)
     "M" "S" ⟨[("S", "S")], [("T", "S")], []⟩ rfl rfl⟩

/-- C2 counterexample state: module A declares only the aliased export
`export { b as c }` (value entry ("c","b")) and nothing is ever used. -/
def aliasExportSt : AnalyzerSt :=
  { importUsage := [], exports := [("A", ⟨[("c", "b")], [], []⟩)], log := [] }

/-- C2 counterexample: with no usage facts at all, the declared exported
name c is matched by no usage, and the report holds the ORIGINAL name b —
c appears in neither unused set.  So the claim "every exported name
either appears in the reported unused set or was matched by an attributed
usage, in particular for aliased exports whose exported name is c" fails
at `export { b as c }`. -/
theorem C2_counterexample :
    finalize 1 aliasExportSt = some [("A", ⟨["b"], []⟩)] ∧
    aliasExportSt.importUsage = [] ∧
    ¬ "c" ∈ unusedValueOf [("A", ⟨["b"], []⟩)] "A" ∧
    ¬ "c" ∈ unusedTypeOf [("A", ⟨["b"], []⟩)] "A" :=
  ⟨rfl, rfl, by decide, by decide⟩

/-- Lookup of a module's step-1 results. -/
theorem lookupA_initResults (st : AnalyzerSt) (A : ModId) :
    lookupA (initResults st) A =
      (lookupA st.exports A).map
        (fun ex => initModuleResults (lookupA st.importUsage A) ex) := by
  unfold initResults
  exact lookupA_mapVal (fun k v => initModuleResults (lookupA st.importUsage k) v)
    st.exports A

/-- C2 amended: after finalize, every export entry (exported name `en`,
original name `orig`) of an analyzed module A is accounted for: the
ORIGINAL name appears in A's reported unused set of the corresponding
table, or the exported name has a direct usage fact against A, or some
usage fact for the ORIGINAL name is attributed to A by the trace.  (The
claim as frozen keys the reported sets by exported names, which fails for
aliased exports — see the counterexample.) -/
theorem C2_export_accounting :
    ∀ (st : AnalyzerSt) (fuel : Nat) (res : List (ModId × ModuleResults))
      (A : ModId) (ex : ModuleExports) (en orig : Sym),
      finalize fuel st = some res →
      lookupA st.exports A = some ex →
      (((en, orig) ∈ ex.exports →
         orig ∈ unusedValueOf res A ∨
         usedB (lookupA st.importUsage A) en = true ∨
         ∃ f ∈ flattenFacts st.importUsage, f.2 = orig ∧
           traceExport st.exports fuel f.1 orig = some (some A)) ∧
       ((en, orig) ∈ ex.typeExports →
         orig ∈ unusedTypeOf res A ∨
         usedB (lookupA st.importUsage A) en = true ∨
         ∃ f ∈ flattenFacts st.importUsage, f.2 = orig ∧
           traceExport st.exports fuel f.1 orig = some (some A))) := by
  intro st fuel res A ex en orig hfin hA
  unfold finalize at hfin
  rcases Option.map_eq_some'.mp hfin with ⟨r2, hstep, hres⟩
  have hinit : lookupA (initResults st) A =
      some (initModuleResults (lookupA st.importUsage A) ex) := by
    rw [lookupA_initResults, hA]
    rfl
  constructor
  · intro hmem
    by_cases hdirect : usedB (lookupA st.importUsage A) en = true
    · exact Or.inr (Or.inl hdirect)
    by_cases hrem : ∃ f ∈ flattenFacts st.importUsage, f.2 = orig ∧
        traceExport st.exports fuel f.1 orig = some (some A)
    · exact Or.inr (Or.inr hrem)
    refine Or.inl ?_
    have h0 : orig ∈ unusedValueOf (initResults st) A := by
      unfold unusedValueOf
      rw [hinit]
      exact buildUnused_mem _ _ en orig hmem (by simpa using hdirect)
    have hno : ∀ f ∈ flattenFacts st.importUsage,
        ¬(f.2 = orig ∧ traceExport st.exports fuel f.1 f.2 = some (some A)) := by
      intro f hf ⟨hfo, htr⟩
      exact hrem ⟨f, hf, hfo, by rwa [hfo] at htr⟩
    have h2 : orig ∈ unusedValueOf r2 A :=
      step2_mem_value st.exports fuel _ _ r2 hstep A orig h0 hno
    unfold unusedValueOf at h2 ⊢
    cases hlook : lookupA r2 A with
    | none => rw [hlook] at h2; cases h2
    | some mr =>
      rw [hlook] at h2
      rw [← hres, lookupA_retainNonEmpty r2 A mr hlook
        (Or.inl (List.ne_nil_of_mem h2))]
      exact h2
  · intro hmem
    by_cases hdirect : usedB (lookupA st.importUsage A) en = true
    · exact Or.inr (Or.inl hdirect)
    by_cases hrem : ∃ f ∈ flattenFacts st.importUsage, f.2 = orig ∧
        traceExport st.exports fuel f.1 orig = some (some A)
    · exact Or.inr (Or.inr hrem)
    refine Or.inl ?_
    have h0 : orig ∈ unusedTypeOf (initResults st) A := by
      unfold unusedTypeOf
      rw [hinit]
      exact buildUnused_mem _ _ en orig hmem (by simpa using hdirect)
    have hno : ∀ f ∈ flattenFacts st.importUsage,
        ¬(f.2 = orig ∧ traceExport st.exports fuel f.1 f.2 = some (some A)) := by
      intro f hf ⟨hfo, htr⟩
      exact hrem ⟨f, hf, hfo, by rwa [hfo] at htr⟩
    have h2 : orig ∈ unusedTypeOf r2 A :=
      step2_mem_type st.exports fuel _ _ r2 hstep A orig h0 hno
    unfold unusedTypeOf at h2 ⊢
    cases hlook : lookupA r2 A with
    | none => rw [hlook] at h2; cases h2
    | some mr =>
      rw [hlook] at h2
      rw [← hres, lookupA_retainNonEmpty r2 A mr hlook
        (Or.inr (List.ne_nil_of_mem h2))]
      exact h2

/-- C2 witness: the accounting applied at the counterexample state: the
aliased entry ("c","b") is accounted through its ORIGINAL name b appearing
in the reported unused value set. -/
theorem C2_witness :
    finalize 1 aliasExportSt = some [("A", ⟨["b"], []⟩)] ∧
    lookupA aliasExportSt.exports "A" = some ⟨[("c", "b")], [], []⟩ ∧
    ((("c", "b") ∈ (⟨[("c", "b")], [], []⟩ : ModuleExports).exports →
       "b" ∈ unusedValueOf [("A", ⟨["b"], []⟩)] "A" ∨
       usedB (lookupA aliasExportSt.importUsage "A") "c" = true ∨
       ∃ f ∈ flattenFacts aliasExportSt.importUsage, f.2 = "b" ∧
         traceExport aliasExportSt.exports 1 f.1 "b" = some (some "A")) ∧
     (("c", "b") ∈ (⟨[("c", "b")], [], []⟩ : ModuleExports).typeExports →
       "b" ∈ unusedTypeOf [("A", ⟨["b"], []⟩)] "A" ∨
       usedB (lookupA aliasExportSt.importUsage "A") "c" = true ∨
       ∃ f ∈ flattenFacts aliasExportSt.importUsage, f.2 = "b" ∧
         traceExport aliasExportSt.exports 1 f.1 "b" = some (some "A"))) :=
  ⟨rfl, rfl,
   C2_export_accounting aliasExportSt 1 [("A", ⟨["b"], []⟩)] "A"
     ⟨[("c", "b")], [], []⟩ "c" "b" rfl rfl⟩

theorem applyFact_ok_of_trace (E : List (ModId × ModuleExports)) (fuel : Nat)
    (res : List (ModId × ModuleResults)) (f : ModId × Sym)
    (h : traceExport E fuel f.1 f.2 ≠ none) :
    applyFact E fuel res f = some (applyFactP E fuel res f) := by
  unfold applyFact applyFactP
  cases ht : traceExport E fuel f.1 f.2 with
  | none => exact absurd ht h
  | some o => cases o <;> rfl

/-- When no fact's trace runs out of fuel, step 2 is the pure fold. -/
theorem step2_all_ok (E : List (ModId × ModuleExports)) (fuel : Nat) :
    ∀ (facts : List (ModId × Sym)) (res : List (ModId × ModuleResults)),
      (∀ f ∈ facts, traceExport E fuel f.1 f.2 ≠ none) →
      step2 E fuel facts res = some (facts.foldl (applyFactP E fuel) res) := by
  intro facts
  induction facts with
  | nil => intro res _; rfl
  | cons f rest ih =>
    intro res hall
    unfold step2
    rw [List.foldlM_cons,
      applyFact_ok_of_trace E fuel res f (hall f (List.mem_cons_self f rest))]
    show step2 E fuel rest (applyFactP E fuel res f) = _
    rw [ih _ (fun g hg => hall g (List.mem_cons_of_mem f hg)), List.foldl_cons]

/-- When some fact's trace runs out of fuel, step 2 reports the
still-recursing marker whatever the accumulated results are. -/
theorem step2_has_failure (E : List (ModId × ModuleExports)) (fuel : Nat) :
    ∀ (facts : List (ModId × Sym)) (res : List (ModId × ModuleResults)),
      (∃ f ∈ facts, traceExport E fuel f.1 f.2 = none) →
      step2 E fuel facts res = none := by
  intro facts
  induction facts with
  | nil =>
    intro res h
    rcases h with ⟨f, hf, _⟩
    simp at hf
  | cons g rest ih =>
    intro res h
    unfold step2
    rw [List.foldlM_cons]
    by_cases hg : traceExport E fuel g.1 g.2 = none
    · have hnone : applyFact E fuel res g = none := by
        unfold applyFact
        rw [hg]
      rw [hnone]
      rfl
    · rw [applyFact_ok_of_trace E fuel res g hg]
      show step2 E fuel rest (applyFactP E fuel res g) = none
      refine ih _ ?_
      rcases h with ⟨f, hf, hfn⟩
      rcases List.mem_cons.mp hf with heq | hmem
      · subst heq
        exact absurd hfn hg
      · exact ⟨f, hmem, hfn⟩

theorem cleanBoth_comm (mr : ModuleResults) (s1 s2 : Sym) :
    cleanBoth (cleanBoth mr s1) s2 = cleanBoth (cleanBoth mr s2) s1 := by
  unfold cleanBoth
  simp [List.filter_filter, Bool.and_comm]

/-- The removals performed by two traced usage facts commute. -/
theorem removeBoth_comm (res : List (ModId × ModuleResults)) (p1 : ModId)
    (s1 : Sym) (p2 : ModId) (s2 : Sym) :
    removeBoth (removeBoth res p1 s1) p2 s2 =
      removeBoth (removeBoth res p2 s2) p1 s1 := by
  unfold removeBoth
  rw [List.map_map, List.map_map]
  refine List.map_congr_left ?_
  intro q _
  simp only [Function.comp]
  by_cases h1 : q.1 = p1
  · by_cases h2 : q.1 = p2
    · have hp : p1 = p2 := by rw [← h1, h2]
      subst hp
      simp [h1, cleanBoth_comm]
    · have hp : ¬ p1 = p2 := fun h => h2 (h1.trans h)
      simp [h1, h2, hp]
  · by_cases h2 : q.1 = p2
    · have hp : ¬ p2 = p1 := fun h => h1 (h2.trans h)
      simp [h1, h2, hp]
    · simp [h1, h2]

/-- The pure step-2 updates of two usage facts commute. -/
theorem applyFactP_comm (E : List (ModId × ModuleExports)) (fuel : Nat)
    (res : List (ModId × ModuleResults)) (f g : ModId × Sym) :
    applyFactP E fuel (applyFactP E fuel res f) g =
      applyFactP E fuel (applyFactP E fuel res g) f := by
  cases hf : traceExport E fuel f.1 f.2 with
  | none => cases hg : traceExport E fuel g.1 g.2 with
    | none => simp [applyFactP, hf, hg]
    | some o => cases o <;> simp [applyFactP, hf, hg]
  | some o =>
    cases o with
    | none => cases hg : traceExport E fuel g.1 g.2 with
      | none => simp [applyFactP, hf, hg]
      | some o2 => cases o2 <;> simp [applyFactP, hf, hg]
    | some p =>
      cases hg : traceExport E fuel g.1 g.2 with
      | none => simp [applyFactP, hf, hg]
      | some o2 =>
        cases o2 with
        | none => simp [applyFactP, hf, hg]
        | some p2 =>
          simp only [applyFactP, hf, hg]
          exact removeBoth_comm res p f.2 p2 g.2

/-- The pure step-2 fold is invariant under permutation of the fact
list. -/
theorem foldl_applyFactP_perm (E : List (ModId × ModuleExports)) (fuel : Nat)
    {l1 l2 : List (ModId × Sym)} (hp : l1.Perm l2)
    (res : List (ModId × ModuleResults)) :
    l1.foldl (applyFactP E fuel) res = l2.foldl (applyFactP E fuel) res :=
  hp.foldl_eq' (fun x _ y _ z => applyFactP_comm E fuel z x y) res

/-- C9: finalize is idempotent and deterministic over the accumulated
state.  First conjunct: a second `finalize` call with no intervening
`add_file` returns the identical report (the Finalizer only reads the
accumulators, so the state after the first call is the state before it).
Second conjunct: the report does not depend on the arbitrary order in
which the usage facts are drawn out of the Usage-Index hash map — any
permutation of the fact list yields the same result. -/
theorem C9_finalize_deterministic_idempotent :
    ∀ (fuel : Nat) (st : AnalyzerSt) (facts : List (ModId × Sym)),
      facts.Perm (flattenFacts st.importUsage) →
      (finalizeCall fuel ((finalizeCall fuel st).2)).1 = (finalizeCall fuel st).1 ∧
      (step2 st.exports fuel facts (initResults st)).map retainNonEmpty =
        finalize fuel st := by
  intro fuel st facts hperm
  refine ⟨rfl, ?_⟩
  unfold finalize
  by_cases hfail : ∃ f ∈ flattenFacts st.importUsage,
      traceExport st.exports fuel f.1 f.2 = none
  · rw [step2_has_failure _ _ _ _ hfail]
    rcases hfail with ⟨f, hf, hn⟩
    rw [step2_has_failure _ _ _ _ ⟨f, hperm.mem_iff.mpr hf, hn⟩]
  · have hall2 : ∀ f ∈ flattenFacts st.importUsage,
        traceExport st.exports fuel f.1 f.2 ≠ none :=
      fun f hf hn => hfail ⟨f, hf, hn⟩
    have hall1 : ∀ f ∈ facts, traceExport st.exports fuel f.1 f.2 ≠ none :=
      fun f hf => hall2 f (hperm.mem_iff.mp hf)
    rw [step2_all_ok _ _ _ _ hall1, step2_all_ok _ _ _ _ hall2,
      foldl_applyFactP_perm st.exports fuel hperm]

/-- A state with two usage facts for module A, used to instantiate C9 at a
genuine reordering of the fact list. -/
def permSt : AnalyzerSt :=
  { importUsage := [("A", ["x", "y"])]
  , exports := [("A", ⟨[("x", "x"), ("y", "y")], [], []⟩)], log := [] }

/-- C9 witness: the facts processed in the swapped order yield the same
report, and the repeated call agrees. -/
theorem C9_witness :
    ([(("A" : ModId), ("y" : Sym)), ("A", "x")]).Perm
        (flattenFacts permSt.importUsage) ∧
    ((finalizeCall 2 ((finalizeCall 2 permSt).2)).1 = (finalizeCall 2 permSt).1 ∧
     (step2 permSt.exports 2 [("A", "y"), ("A", "x")] (initResults permSt)).map
         retainNonEmpty = finalize 2 permSt) :=
  ⟨List.Perm.swap ("A", "x") ("A", "y") [],
   C9_finalize_deterministic_idempotent 2 permSt [("A", "y"), ("A", "x")]
     (List.Perm.swap ("A", "x") ("A", "y") [])⟩

end TsDeadcode
